import Mathlib

/-!
Shallow embedding of `service-worker.js` (habit-tracker service worker).

The worker's logic is embedded as pure Lean functions:
- the cache store (the host's `caches` object) is an association list from
  cache name to a cache, a cache being an association list from request URL
  to a stored response snapshot;
- the network (`fetch`) is an explicit oracle parameter
  `Request -> Except Unit Response`, an `Except.error` modelling a rejected
  fetch (network unreachable);
- each handler returns its result together with the updated cache store and,
  for the fetch strategies, a flag recording whether the network was
  consulted.

Host primitives (`caches.match`, `caches.open`, `Cache.put`, `Cache.addAll`)
are modelled per the Service Worker / Cache API specification; the worker's
own code is translated line by line from the source.  `Response.clone` is the
identity here because responses are immutable values in the model.
-/

set_option autoImplicit false

namespace SW

/-- A response snapshot: status, the one header the worker ever sets or reads
on its synthetic responses (`Content-Type`), and the body text. -/
structure Response where
  status : Nat
  contentType : Option String
  body : String
  deriving DecidableEq, Repr

/-- A request as the worker observes it: the full URL (used as the cache key
and for routing), the method, and the value of the `accept` header when the
request carries one (`request.headers.get('accept')` is `null` otherwise). -/
structure Request where
  url : String
  method : String
  accept : Option String
  deriving DecidableEq, Repr

/-- One named cache: an association list from request URL to stored response.
The Cache API keys entries by request URL. -/
abbrev Cache := List (String × Response)

/-- The `caches` object: association list from cache name to cache, kept in
creation order (`caches.match` and `caches.keys` iterate in that order). -/
abbrev CacheStore := List (String × Cache)

/-- The network oracle: `fetch` either resolves with a response or rejects
(network error). -/
abbrev Net := Request → Except Unit Response

/-- Constant `CACHE_VERSION = 'v1'` from the source. -/
def CACHE_VERSION : String := "v1"

/-- Constant `CACHE_NAME` from the source: the current cache generation's name. -/
def CACHE_NAME : String := "habit-tracker-" ++ CACHE_VERSION

/-- Constant `STATIC_CACHE_URLS` from the source: the fixed static manifest. -/
def STATIC_CACHE_URLS : List String :=
  [ "./index.html"
  , "./manifest.json"
  , "https://cdn.tailwindcss.com"
  , "https://cdn.jsdelivr.net/npm/font-awesome@4.7.0/css/font-awesome.min.css"
  , "https://cdn.jsdelivr.net/npm/chart.js@4.4.8/dist/chart.umd.min.js" ]

/-- Lookup in one cache: first entry whose key equals the URL. -/
def cacheLookup : Cache → String → Option Response
  | [], _ => none
  | (k, v) :: rest, url => if k = url then some v else cacheLookup rest url

/-- Insert or replace an entry in one cache (`Cache.put` on a single cache:
an existing entry for the same request is replaced). -/
def cacheInsert : Cache → String → Response → Cache
  | [], url, r => [(url, r)]
  | (k, v) :: rest, url, r =>
      if k = url then (k, r) :: rest else (k, v) :: cacheInsert rest url r

/-- Model of `caches.match(request)`: search every cache in creation order, return the
first stored response whose key matches the request URL. -/
def cachesMatch : CacheStore → String → Option Response
  | [], _ => none
  | (_, c) :: rest, url =>
      match cacheLookup c url with
      | some r => some r
      | none => cachesMatch rest url

/-- Model of `caches.open(name)`: return the store, creating an empty cache of that
name (appended in creation order) when none exists. -/
def cachesOpen : CacheStore → String → CacheStore
  | [], name => [(name, [])]
  | (n, c) :: rest, name =>
      if n = name then (n, c) :: rest else (n, c) :: cachesOpen rest name

/-- Model of `caches.open(name)` followed by `cache.put(url, r)`: store `r` under `url`
in the cache named `name`, creating the cache when absent. -/
def storePut : CacheStore → String → String → Response → CacheStore
  | [], name, url, r => [(name, cacheInsert [] url r)]
  | (n, c) :: rest, name, url, r =>
      if n = name then (n, cacheInsert c url r) :: rest
      else (n, c) :: storePut rest name url r

/-- The worker's `caches.open(CACHE_NAME); cache.put(request, response)`
call.  Per the Cache API, `Cache.put` rejects when the request method is not
`GET`; the worker does not await the put, so such a rejection leaves the
store unchanged and does not affect the response returned to the caller. -/
def cachePutReq (s : CacheStore) (req : Request) (r : Response) : CacheStore :=
  if req.method = "GET" then storePut s CACHE_NAME req.url r else s

/-- Whether the second character list is an initial segment of the first. -/
def charsStartWith : List Char → List Char → Bool
  | _, [] => true
  | [], _ :: _ => false
  | c :: cs, d :: ds => c = d && charsStartWith cs ds

/-- Whether the second character list occurs inside the first. -/
def charsContain : List Char → List Char → Bool
  | [], sub => sub.isEmpty
  | c :: rest, sub => charsStartWith (c :: rest) sub || charsContain rest sub

/-- Model of `s.startsWith(p)` on JavaScript strings. -/
def startsWithS (s p : String) : Bool :=
  charsStartWith s.data p.data

/-- Model of `s.includes(sub)` on JavaScript strings. -/
def includesSub (s sub : String) : Bool :=
  charsContain s.data sub.data

/-- Everything after the first `://` (scheme separator) of an absolute URL. -/
def afterSchemeSep : List Char → List Char
  | ':' :: '/' :: '/' :: rest => rest
  | _ :: rest => afterSchemeSep rest
  | [] => []

/-- The suffix starting at the first `/` (start of the path); `/` when the
URL has no path. -/
def fromSlash : List Char → List Char
  | [] => ['/']
  | '/' :: rest => '/' :: rest
  | _ :: rest => fromSlash rest

/-- Cut the path at the first `?` (query) or `#` (fragment). -/
def takeUntilQuery : List Char → List Char
  | [] => []
  | c :: rest => if c = '?' ∨ c = '#' then [] else c :: takeUntilQuery rest

/-- Model of `new URL(url).pathname` for an absolute URL: the part after the host,
without query string or fragment. -/
def pathname (url : String) : String :=
  String.mk (takeUntilQuery (fromSlash (afterSchemeSep url.data)))

/-- What a fetch-event handler hands to `event.respondWith`: a response, the
JavaScript value `undefined` (when `caches.match` missed and its result was
returned directly), or an uncaught exception. -/
inductive FetchResult where
  | response (r : Response)
  | noResponse
  | thrown
  deriving DecidableEq, Repr

/-- Result of serving one fetch event: the value given to `respondWith`, the
cache store afterwards, and whether `fetch` was called. -/
structure ServeResult where
  result : FetchResult
  store : CacheStore
  usedNetwork : Bool
  deriving DecidableEq, Repr

/-- The synthetic response `new Response('Network error happened', { status:
408, headers: { 'Content-Type': 'text/plain' } })` from `cacheFirst`. -/
def networkErrorResponse : Response :=
  ⟨408, some "text/plain", "Network error happened"⟩

/-- The synthetic offline response of `networkFirst`: status 200, plain
text. -/
def offlineResponse : Response :=
  ⟨200, some "text/plain", "您当前处于离线状态，无法获取最新数据"⟩

/-- Function `cacheFirst(request)` from the source.  Cache hit returns the stored
response without touching the network.  On a miss, fetch; a 200 response to a
GET request is cloned into the current cache generation before being
returned.  On fetch failure the catch block reads
`request.headers.get('accept')`: when the header is absent that value is
`null` and `.includes` throws an uncaught TypeError; when present and
containing `text/html` the result of `caches.match('./index.html')` is
returned (possibly `undefined`); otherwise the synthetic 408 response. -/
def cacheFirst (store : CacheStore) (net : Net) (request : Request) :
    ServeResult :=
  match cachesMatch store request.url with
  | some cachedResponse => ⟨.response cachedResponse, store, false⟩
  | none =>
    match net request with
    | .ok networkResponse =>
        let store' :=
          if networkResponse.status = 200 ∧ request.method = "GET" then
            cachePutReq store request networkResponse
          else store
        ⟨.response networkResponse, store', true⟩
    | .error _ =>
        match request.accept with
        | none => ⟨.thrown, store, true⟩
        | some accept =>
            if includesSub accept "text/html" then
              match cachesMatch store "./index.html" with
              | some shell => ⟨.response shell, store, true⟩
              | none => ⟨.noResponse, store, true⟩
            else ⟨.response networkErrorResponse, store, true⟩

/-- Function `networkFirst(request)` from the source.  Fetch first; a 200 response is
cloned into the current cache generation (no method check in the source: the
host's `Cache.put` is what rejects non-GET writes, see `cachePutReq`).  On
fetch failure, fall back to the cache, and when that also misses return the
synthetic offline 200 response. -/
def networkFirst (store : CacheStore) (net : Net) (request : Request) :
    ServeResult :=
  match net request with
  | .ok networkResponse =>
      let store' :=
        if networkResponse.status = 200 then
          cachePutReq store request networkResponse
        else store
      ⟨.response networkResponse, store', true⟩
  | .error _ =>
      match cachesMatch store request.url with
      | some cachedResponse => ⟨.response cachedResponse, store, true⟩
      | none => ⟨.response offlineResponse, store, true⟩

/-- The fetch-event router: requests whose URL pathname starts with `/api/`
go to `networkFirst`, every other request to `cacheFirst`. -/
def handleFetch (store : CacheStore) (net : Net) (request : Request) :
    ServeResult :=
  if startsWithS (pathname request.url) "/api/" then
    networkFirst store net request
  else cacheFirst store net request

/-- Lookup of one URL inside the cache named `name` (none when no cache of
that name exists or the cache has no entry for the URL). -/
def storeCacheLookup : CacheStore → String → String → Option Response
  | [], _, _ => none
  | (n, c) :: rest, name, url =>
      if n = name then cacheLookup c url else storeCacheLookup rest name url

/-- The last value stored under a key in a list of (URL, response) entries:
the value a left-to-right sequence of puts leaves in place. -/
def lookupLast : List (String × Response) → String → Option Response
  | [], _ => none
  | (k, v) :: rest, u =>
      match lookupLast rest u with
      | some r => some r
      | none => if k = u then some v else none

/-- Whether a response is acceptable to `Cache.addAll` (ok status). -/
def respOk (r : Response) : Bool :=
  200 ≤ r.status && r.status ≤ 299

/-- Whether a fetch outcome counts as a successful fetch of a manifest URL:
the fetch resolved and the response has an ok status.  (`Cache.addAll`
rejects both on a rejected fetch and on a non-ok response.) -/
def fetchRespOk : Except Unit Response → Bool
  | .ok r => respOk r
  | .error _ => false

/-- The fetching phase of `Cache.addAll`: fetch every URL of the list; the
whole batch rejects as soon as one fetch fails or yields a non-ok response,
and nothing is stored in that case. -/
def addAllFetch (net : String → Except Unit Response) :
    List String → Except Unit (List (String × Response))
  | [] => .ok []
  | u :: rest =>
      match net u with
      | .error e => .error e
      | .ok r =>
          if respOk r then
            match addAllFetch net rest with
            | .error e => .error e
            | .ok es => .ok ((u, r) :: es)
          else .error ()

/-- The install handler: `caches.open(CACHE_NAME)` (which creates the
current generation, empty, even when the subsequent bulk add fails) followed
by `cache.addAll(STATIC_CACHE_URLS)`.  Returns whether installation
succeeded together with the cache store afterwards.  (`self.skipWaiting()`
has no effect on the cache store.) -/
def install (store : CacheStore) (net : String → Except Unit Response) :
    Except Unit Unit × CacheStore :=
  match addAllFetch net STATIC_CACHE_URLS with
  | .error _ => (.error (), cachesOpen store CACHE_NAME)
  | .ok entries =>
      (.ok (), entries.foldl (fun s p => storePut s CACHE_NAME p.1 p.2)
        (cachesOpen store CACHE_NAME))

/-- The activate handler: delete every cache whose name starts with
`habit-tracker-` but is not `CACHE_NAME`.  (`self.clients.claim()` has no
effect on the cache store.) -/
def activate (store : CacheStore) : CacheStore :=
  store.filter (fun p => !(startsWithS p.1 "habit-tracker-" && p.1 != CACHE_NAME))

/-- The structured push payload `{ title?, body?, url? }`: what
`event.data.json()` yields when parsing succeeds. -/
structure PushPayload where
  title : Option String
  body : Option String
  url : Option String
  deriving DecidableEq, Repr

/-- A notification request as passed to
`self.registration.showNotification(title, options)`: the title and the
options the worker builds.  Each action is an (action identifier, action
title) pair. -/
structure NotificationRequest where
  title : String
  body : String
  icon : String
  badge : String
  dataUrl : String
  actions : List (String × String)
  deriving DecidableEq, Repr

/-- Model of JavaScript `v || d` on an optional string payload field: the
default is used when the field is absent (`undefined`) and also when it is
present but falsy — for a string field, the empty string. -/
def jsOr (v : Option String) (d : String) : String :=
  match v with
  | none => d
  | some s => if s = "" then d else s

/-- The push handler.  Its input models `event.data`: `none` when the push
event carries no data at all (the handler returns at once), and otherwise
the outcome of `event.data.json()` — `Except.error` when parsing throws (the
catch block logs and no notification is shown), or the parsed payload.
Payload fields fall back to the fixed defaults via JavaScript `||`
(see `jsOr`): a field that is absent, or present but an empty string, is
replaced by the default. -/
def pushHandler (eventData : Option (Except String PushPayload)) :
    Option NotificationRequest :=
  match eventData with
  | none => none
  | some (.error _) => none
  | some (.ok data) =>
      some
        { title := jsOr data.title "习惯打卡提醒"
        , body := jsOr data.body "该打卡了！"
        , icon := "./icons/icon-192x192.svg"
        , badge := "./icons/icon-72x72.svg"
        , dataUrl := jsOr data.url "./index.html"
        , actions := [("checkin", "去打卡"), ("later", "稍后提醒")] }

/-! ### Lookup lemmas about the cache-store model -/

/-- Sanity check of the URL model: the pathname of an absolute URL with a
query string. -/
theorem pathname_api_example :
    pathname "https://example.com/api/habits?x=1" = "/api/habits" := by decide

theorem cacheLookup_cacheInsert (c : Cache) (u : String) (r : Response)
    (url : String) :
    cacheLookup (cacheInsert c u r) url =
      if u = url then some r else cacheLookup c url := by
  induction c with
  | nil =>
      by_cases h : u = url <;> simp [cacheInsert, cacheLookup, h]
  | cons p rest ih =>
      obtain ⟨k, v⟩ := p
      by_cases hk : k = u
      · subst hk
        by_cases h : k = url <;> simp [cacheInsert, cacheLookup, h]
      · by_cases h : k = url
        · subst h
          simp [cacheInsert, cacheLookup, hk, Ne.symm hk]
        · simp [cacheInsert, cacheLookup, hk, h, ih]

theorem storeCacheLookup_storePut (s : CacheStore) (nm u : String)
    (r : Response) (name url : String) :
    storeCacheLookup (storePut s nm u r) name url =
      if nm = name then
        (if u = url then some r else storeCacheLookup s name url)
      else storeCacheLookup s name url := by
  induction s with
  | nil =>
      by_cases hn : nm = name <;>
        simp [storePut, storeCacheLookup, cacheLookup_cacheInsert, cacheLookup, hn]
  | cons p rest ih =>
      obtain ⟨n, c⟩ := p
      by_cases hn : n = nm
      · subst hn
        by_cases hname : n = name
        · simp [storePut, storeCacheLookup, hname, cacheLookup_cacheInsert]
        · simp [storePut, storeCacheLookup, hname]
      · by_cases hname : n = name
        · subst hname
          simp [storePut, storeCacheLookup, hn, Ne.symm hn]
        · simp [storePut, storeCacheLookup, hn, hname, ih]

theorem cachesMatch_storePut_self (s : CacheStore) (nm u : String)
    (r : Response) (h : cachesMatch s u = none) :
    cachesMatch (storePut s nm u r) u = some r := by
  induction s with
  | nil => simp [storePut, cachesMatch, cacheInsert, cacheLookup]
  | cons p rest ih =>
      obtain ⟨n, c⟩ := p
      cases hcl : cacheLookup c u with
      | some r' => simp [cachesMatch, hcl] at h
      | none =>
          have hrest : cachesMatch rest u = none := by
            simpa [cachesMatch, hcl] using h
          by_cases hn : n = nm
          · simp [storePut, hn, cachesMatch, cacheLookup_cacheInsert]
          · simp [storePut, hn, cachesMatch, hcl, ih hrest]

theorem storeCacheLookup_cachesOpen (s : CacheStore) (nm name url : String) :
    storeCacheLookup (cachesOpen s nm) name url =
      storeCacheLookup s name url := by
  induction s with
  | nil =>
      by_cases hn : nm = name <;> simp [cachesOpen, storeCacheLookup, cacheLookup, hn]
  | cons p rest ih =>
      obtain ⟨n, c⟩ := p
      by_cases hn : n = nm
      · simp [cachesOpen, hn, storeCacheLookup]
      · by_cases hname : n = name
        · subst hname
          simp [cachesOpen, storeCacheLookup, hn]
        · simp [cachesOpen, storeCacheLookup, hn, hname, ih]

theorem lookupLast_eq_none (es : List (String × Response)) (u : String)
    (h : u ∉ es.map Prod.fst) : lookupLast es u = none := by
  induction es with
  | nil => rfl
  | cons p rest ih =>
      obtain ⟨k, v⟩ := p
      have hk : ¬ k = u := by
        intro hh
        exact h (by simp [hh])
      have hrest : u ∉ rest.map Prod.fst := by
        intro hh
        exact h (by simp [hh])
      simp [lookupLast, ih hrest, hk]

theorem foldl_storePut_lookup (entries : List (String × Response))
    (s : CacheStore) (name u : String) :
    storeCacheLookup (entries.foldl (fun t p => storePut t name p.1 p.2) s)
        name u =
      match lookupLast entries u with
      | some r => some r
      | none => storeCacheLookup s name u := by
  induction entries generalizing s with
  | nil => simp [lookupLast]
  | cons p rest ih =>
      obtain ⟨k, v⟩ := p
      have hstep := storeCacheLookup_storePut s name k v name u
      cases hl : lookupLast rest u with
      | some r => simp [List.foldl, ih, hl, lookupLast]
      | none =>
          by_cases hk : k = u
          · subst hk
            simp [List.foldl, ih, hl, lookupLast, hstep]
          · simp [List.foldl, ih, hl, lookupLast, hk, hstep]

theorem addAllFetch_ok_spec (net : String → Except Unit Response) :
    ∀ (urls : List String) (entries : List (String × Response)),
      addAllFetch net urls = .ok entries →
      entries.map Prod.fst = urls ∧
      ∀ u ∈ urls, ∃ r, net u = .ok r ∧ lookupLast entries u = some r := by
  intro urls
  induction urls with
  | nil =>
      intro entries h
      simp [addAllFetch] at h
      subst h
      simp
  | cons u rest ih =>
      intro entries h
      unfold addAllFetch at h
      cases hnet : net u with
      | error e => simp [hnet] at h
      | ok r =>
          simp only [hnet] at h
          by_cases hok : respOk r = true
          · simp only [hok, if_true] at h
            cases hrest : addAllFetch net rest with
            | error e => simp [hrest] at h
            | ok es =>
                simp only [hrest] at h
                cases h
                obtain ⟨hkeys, hprop⟩ := ih es hrest
                constructor
                · simp [hkeys]
                · intro u' hu'
                  by_cases hmem : u' ∈ rest
                  · obtain ⟨r', hnet', hlast'⟩ := hprop u' hmem
                    exact ⟨r', hnet', by simp [lookupLast, hlast']⟩
                  · have : u' = u := by
                      rcases List.mem_cons.mp hu' with h1 | h1
                      · exact h1
                      · exact absurd h1 hmem
                    subst this
                    have hnone : lookupLast es u' = none := by
                      apply lookupLast_eq_none
                      rw [hkeys]
                      exact hmem
                    exact ⟨r, hnet, by simp [lookupLast, hnone]⟩
          · simp [hok] at h

theorem addAllFetch_isOk_iff (net : String → Except Unit Response) :
    ∀ urls : List String,
      (∃ es, addAllFetch net urls = .ok es) ↔
        ∀ u ∈ urls, fetchRespOk (net u) = true := by
  intro urls
  induction urls with
  | nil => simp [addAllFetch]
  | cons u rest ih =>
      constructor
      · rintro ⟨es, h⟩
        unfold addAllFetch at h
        cases hnet : net u with
        | error e => simp [hnet] at h
        | ok r =>
            simp only [hnet] at h
            by_cases hok : respOk r = true
            · simp only [hok, if_true] at h
              cases hrest : addAllFetch net rest with
              | error e => simp [hrest] at h
              | ok es' =>
                  intro u' hu'
                  rcases List.mem_cons.mp hu' with h1 | h1
                  · subst h1
                    simp [fetchRespOk, hnet, hok]
                  · exact (ih.mp ⟨es', hrest⟩) u' h1
            · simp [hok] at h
      · intro hall
        have hu : fetchRespOk (net u) = true := hall u (by simp)
        have hrest : ∀ u' ∈ rest, fetchRespOk (net u') = true := by
          intro u' hu'
          exact hall u' (by simp [hu'])
        obtain ⟨es, hes⟩ := ih.mpr hrest
        cases hnet : net u with
        | error e => simp [fetchRespOk, hnet] at hu
        | ok r =>
            have hok : respOk r = true := by simpa [fetchRespOk, hnet] using hu
            exact ⟨(u, r) :: es, by simp [addAllFetch, hnet, hok, hes]⟩

/-! ### Claim theorems -/

/-- Claim C1: for every request classified as non-API (cache-first) whose key
is present in the cache, `cacheFirst` returns the stored cached response and
performs no network fetch (the outcome is the cached response, the store is
unchanged, and the network-used flag is `false`, for every network oracle). -/
theorem cacheFirst_cache_hit_no_network (store : CacheStore) (net : Net)
    (req : Request) (r : Response)
    (hroute : startsWithS (pathname req.url) "/api/" = false)
    (hhit : cachesMatch store req.url = some r) :
    handleFetch store net req = ⟨.response r, store, false⟩ := by
  simp [handleFetch, hroute, cacheFirst, hhit]

/-- Witness for C1 at a concrete cached static asset. -/
theorem cacheFirst_cache_hit_no_network_witness :
    handleFetch [(CACHE_NAME, [("https://example.com/logo.png", ⟨200, none, "png"⟩)])]
        (fun _ => .error ()) ⟨"https://example.com/logo.png", "GET", none⟩ =
      ⟨.response ⟨200, none, "png"⟩,
        [(CACHE_NAME, [("https://example.com/logo.png", ⟨200, none, "png"⟩)])],
        false⟩ :=
  cacheFirst_cache_hit_no_network
    [(CACHE_NAME, [("https://example.com/logo.png", ⟨200, none, "png"⟩)])]
    (fun _ => .error ()) ⟨"https://example.com/logo.png", "GET", none⟩
    ⟨200, none, "png"⟩ (by decide) (by decide)

/-- Claim C2: for every request served by `networkFirst`, if the network
fetch fails then the result is the cached entry when one exists, and
otherwise the synthetic plain-text offline response with status 200 — never
a propagated error. -/
theorem networkFirst_failure_fallback (store : CacheStore) (net : Net)
    (req : Request) (hfail : net req = .error ()) :
    (∀ r, cachesMatch store req.url = some r →
        networkFirst store net req = ⟨.response r, store, true⟩) ∧
    (cachesMatch store req.url = none →
        networkFirst store net req = ⟨.response offlineResponse, store, true⟩ ∧
        offlineResponse.status = 200 ∧
        offlineResponse.contentType = some "text/plain") := by
  constructor
  · intro r hr
    simp [networkFirst, hfail, hr]
  · intro hnone
    exact ⟨by simp [networkFirst, hfail, hnone], rfl, rfl⟩

/-- Witness for C2: network unreachable, no cached entry, offline 200. -/
theorem networkFirst_failure_fallback_witness :
    networkFirst [] (fun _ => .error ())
        ⟨"https://example.com/api/habits", "GET", none⟩ =
      ⟨.response offlineResponse, [], true⟩ :=
  ((networkFirst_failure_fallback [] (fun _ => .error ())
      ⟨"https://example.com/api/habits", "GET", none⟩ rfl).2 rfl).1

/-- Claim C3 (counterexample): the claim predicts that a cache-miss request
whose accept header does not include an HTML content type gets the synthetic
408 response when the fetch fails; but a request carrying no accept header at
all makes the catch block call `.includes` on `null`, so the handler throws
instead of returning the 408 response. -/
theorem cacheFirst_no_accept_counterexample :
    cacheFirst [] (fun _ => .error ())
        ⟨"https://example.com/logo.png", "GET", none⟩ = ⟨.thrown, [], true⟩ ∧
    (cacheFirst [] (fun _ => .error ())
        ⟨"https://example.com/logo.png", "GET", none⟩).result ≠
      .response networkErrorResponse := by
  decide

/-- Claim C3 (amended): for every request served by `cacheFirst` with a cache
miss whose network fetch fails and which carries an accept header, if the
header value includes `text/html` the result is the cache lookup of the
application shell `./index.html` (the stored shell when present), and
otherwise the synthetic plain-text response with status 408. -/
theorem cacheFirst_miss_failure_accept (store : CacheStore) (net : Net)
    (req : Request) (a : String)
    (hmiss : cachesMatch store req.url = none)
    (hfail : net req = .error ())
    (hacc : req.accept = some a) :
    cacheFirst store net req =
      (if includesSub a "text/html" = true then
        (match cachesMatch store "./index.html" with
         | some shell => ⟨.response shell, store, true⟩
         | none => ⟨.noResponse, store, true⟩)
      else ⟨.response networkErrorResponse, store, true⟩) := by
  simp [cacheFirst, hmiss, hfail, hacc]

/-- Witness for the amended C3: non-HTML accept header, cache miss, network
failure yields the synthetic 408 response. -/
theorem cacheFirst_miss_failure_accept_witness :
    cacheFirst [] (fun _ => .error ())
        ⟨"https://example.com/logo.png", "GET", some "image/png"⟩ =
      ⟨.response networkErrorResponse, [], true⟩ :=
  (cacheFirst_miss_failure_accept [] (fun _ => .error ())
      ⟨"https://example.com/logo.png", "GET", some "image/png"⟩ "image/png"
      rfl rfl rfl).trans (by decide)

/-- Claim C7: the worker's own catch block dereferences
`request.headers.get('accept')`, which is `null` for a request carrying no
accept header, so a cache-miss `cacheFirst` serve whose fetch fails throws an
uncaught TypeError instead of returning a fallback response: the strategies
are not total, contradicting the spec's error-handling design. -/
theorem cacheFirst_no_accept_header_throws :
    cacheFirst [] (fun _ => .error ())
        ⟨"https://example.com/app.css", "GET", none⟩ = ⟨.thrown, [], true⟩ := by
  decide

/-- Claim C8: for every GET request to a non-API path whose first
`cacheFirst` serve is a cache miss answered by the network with status 200,
the response is cached, and a second identical serve returns the same
response (hence an identical body) from the cache, without a network fetch
(for any network oracle on the second serve). -/
theorem cacheFirst_repeat_serves_cache (store : CacheStore) (net net2 : Net)
    (req : Request) (r : Response)
    (hroute : startsWithS (pathname req.url) "/api/" = false)
    (hget : req.method = "GET")
    (hmiss : cachesMatch store req.url = none)
    (hnet : net req = .ok r)
    (h200 : r.status = 200) :
    handleFetch store net req =
      ⟨.response r, storePut store CACHE_NAME req.url r, true⟩ ∧
    handleFetch (handleFetch store net req).store net2 req =
      ⟨.response r, storePut store CACHE_NAME req.url r, false⟩ := by
  have h1 : handleFetch store net req =
      ⟨.response r, storePut store CACHE_NAME req.url r, true⟩ := by
    simp [handleFetch, hroute, cacheFirst, hmiss, hnet, h200, hget, cachePutReq]
  refine ⟨h1, ?_⟩
  rw [h1]
  have hhit : cachesMatch (storePut store CACHE_NAME req.url r) req.url = some r :=
    cachesMatch_storePut_self store CACHE_NAME req.url r hmiss
  simp [handleFetch, hroute, cacheFirst, hhit]

/-- Witness for C8 at a concrete first-miss, network-200 scenario. -/
theorem cacheFirst_repeat_serves_cache_witness :
    handleFetch [] (fun _ => .ok ⟨200, some "text/html", "hello"⟩)
        ⟨"https://example.com/index.html", "GET", some "text/html"⟩ =
      ⟨.response ⟨200, some "text/html", "hello"⟩,
        storePut [] CACHE_NAME "https://example.com/index.html"
          ⟨200, some "text/html", "hello"⟩, true⟩ ∧
    handleFetch
        (handleFetch [] (fun _ => .ok ⟨200, some "text/html", "hello"⟩)
          ⟨"https://example.com/index.html", "GET", some "text/html"⟩).store
        (fun _ => .error ())
        ⟨"https://example.com/index.html", "GET", some "text/html"⟩ =
      ⟨.response ⟨200, some "text/html", "hello"⟩,
        storePut [] CACHE_NAME "https://example.com/index.html"
          ⟨200, some "text/html", "hello"⟩, false⟩ :=
  cacheFirst_repeat_serves_cache [] (fun _ => .ok ⟨200, some "text/html", "hello"⟩)
    (fun _ => .error ()) ⟨"https://example.com/index.html", "GET", some "text/html"⟩
    ⟨200, some "text/html", "hello"⟩ (by decide) rfl rfl rfl rfl

/-- Claim C4: across both strategies (via the fetch router), a response is
persisted into the cache store only when it has status 200 and the request
method is GET (the `Cache.put` the source reaches without its own method
check is rejected by the Cache API for non-GET requests): any entry readable
after a serve that was not readable before is the fetched response of a
status-200 GET exchange. -/
theorem persist_only_status200_get (store : CacheStore) (net : Net)
    (req : Request) (name url : String) (r : Response)
    (hafter : storeCacheLookup (handleFetch store net req).store name url = some r)
    (hbefore : storeCacheLookup store name url ≠ some r) :
    r.status = 200 ∧ req.method = "GET" ∧ net req = .ok r := by
  have key : ∀ resp : Response,
      storeCacheLookup (cachePutReq store req resp) name url = some r →
      req.method = "GET" ∧ r = resp := by
    intro resp h
    unfold cachePutReq at h
    by_cases hget : req.method = "GET"
    · rw [if_pos hget, storeCacheLookup_storePut] at h
      by_cases hn : CACHE_NAME = name
      · by_cases hu : req.url = url
        · simp [hn, hu] at h
          exact ⟨hget, h.symm⟩
        · simp [hn, hu] at h
          exact absurd h hbefore
      · simp [hn] at h
        exact absurd h hbefore
    · rw [if_neg hget] at h
      exact absurd h hbefore
  by_cases hroute : startsWithS (pathname req.url) "/api/" = true
  · simp only [handleFetch, hroute, if_true] at hafter
    cases hnet : net req with
    | error e =>
        simp only [networkFirst, hnet] at hafter
        cases hcm : cachesMatch store req.url <;>
          simp [hcm] at hafter <;> exact absurd hafter hbefore
    | ok resp =>
        simp only [networkFirst, hnet] at hafter
        by_cases h200 : resp.status = 200
        · simp only [h200, if_true] at hafter
          obtain ⟨hget, hr⟩ := key resp hafter
          subst hr
          exact ⟨h200, hget, rfl⟩
        · simp only [h200, if_false] at hafter
          exact absurd hafter hbefore
  · simp only [handleFetch, hroute, if_false] at hafter
    cases hcm : cachesMatch store req.url with
    | some c =>
        simp only [cacheFirst, hcm] at hafter
        exact absurd hafter hbefore
    | none =>
        cases hnet : net req with
        | ok resp =>
            simp only [cacheFirst, hcm, hnet] at hafter
            by_cases hcond : resp.status = 200 ∧ req.method = "GET"
            · simp only [hcond, if_true] at hafter
              obtain ⟨hget, hr⟩ := key resp hafter
              subst hr
              exact ⟨hcond.1, hget, rfl⟩
            · simp only [hcond, if_false] at hafter
              exact absurd hafter hbefore
        | error e =>
            simp only [cacheFirst, hcm, hnet] at hafter
            cases hacc : req.accept with
            | none =>
                simp only [hacc] at hafter
                exact absurd hafter hbefore
            | some a =>
                simp only [hacc] at hafter
                by_cases hinc : includesSub a "text/html" = true
                · simp only [hinc, if_true] at hafter
                  cases hsh : cachesMatch store "./index.html" <;>
                    simp [hsh] at hafter <;> exact absurd hafter hbefore
                · simp only [hinc, if_false] at hafter
                  exact absurd hafter hbefore

/-- Witness for C4: a concrete serve that persists a new entry, whose status
and method are forced to 200 and GET. -/
theorem persist_only_status200_get_witness :
    (⟨200, none, "shell"⟩ : Response).status = 200 ∧
    (⟨"https://example.com/index.html", "GET", none⟩ : Request).method = "GET" ∧
    (fun _ : Request => (.ok ⟨200, none, "shell"⟩ : Except Unit Response))
        ⟨"https://example.com/index.html", "GET", none⟩ =
      .ok ⟨200, none, "shell"⟩ :=
  persist_only_status200_get [] (fun _ => .ok ⟨200, none, "shell"⟩)
    ⟨"https://example.com/index.html", "GET", none⟩ CACHE_NAME
    "https://example.com/index.html" ⟨200, none, "shell"⟩ (by decide) (by decide)

/-- Claim C9 (counterexample): the claim says the notification's title is
the payload's field whenever the field is present; but the source uses
JavaScript `||`, which treats a present-but-empty string as falsy, so the
payload `{"title":"", "body":"Time", "url":"./index.html"}` shows the fixed
default title rather than the empty one. -/
theorem pushHandler_empty_title_counterexample :
    (pushHandler (some (.ok ⟨some "", some "Time", some "./index.html"⟩))).map
        NotificationRequest.title ≠ some "" ∧
    pushHandler (some (.ok ⟨some "", some "Time", some "./index.html"⟩)) =
      some ⟨"习惯打卡提醒", "Time", "./icons/icon-192x192.svg",
        "./icons/icon-72x72.svg", "./index.html",
        [("checkin", "去打卡"), ("later", "稍后提醒")]⟩ := by
  decide

/-- Claim C9 (amended): a push event whose payload parses as JSON shows a
notification whose title, body and target URL are the payload's fields when
present and truthy (non-empty), and the fixed defaults when absent or empty
(JavaScript `||` semantics, see `jsOr`), with the two actions `checkin` and
`later`; a payload that fails to parse shows no notification. -/
theorem pushHandler_json_notification (d : PushPayload) (e : String) :
    pushHandler (some (.ok d)) =
      some ⟨jsOr d.title "习惯打卡提醒", jsOr d.body "该打卡了！",
        "./icons/icon-192x192.svg", "./icons/icon-72x72.svg",
        jsOr d.url "./index.html",
        [("checkin", "去打卡"), ("later", "稍后提醒")]⟩ ∧
    pushHandler (some (.error e)) = none :=
  ⟨rfl, rfl⟩

/-- Witness for the amended C9 at the spec's concrete push scenario (all
fields present and non-empty). -/
theorem pushHandler_json_notification_witness :
    pushHandler (some (.ok
        ⟨some "Reminder", some "Time to check in", some "./index.html"⟩)) =
      some ⟨"Reminder", "Time to check in", "./icons/icon-192x192.svg",
        "./icons/icon-72x72.svg", "./index.html",
        [("checkin", "去打卡"), ("later", "稍后提醒")]⟩ ∧
    pushHandler (some (.error "SyntaxError")) = none :=
  ⟨(pushHandler_json_notification
      ⟨some "Reminder", some "Time to check in", some "./index.html"⟩
      "SyntaxError").1.trans (by decide),
   (pushHandler_json_notification
      ⟨some "Reminder", some "Time to check in", some "./index.html"⟩
      "SyntaxError").2⟩

/-- Claim C10: a push event that carries no data at all makes the handler
return immediately: no notification is shown and no error is raised. -/
theorem pushHandler_no_data : pushHandler none = none := rfl

/-- Claim C5: after activation, exactly one cache named with the current
version exists; every cache whose name starts with the `habit-tracker-`
naming prefix but differs from the current generation's name has been
deleted; caches not matching the prefix are untouched.  (The current
generation exists before activation because installation opened it.) -/
theorem activate_generation_exclusive (store : CacheStore)
    (hnodup : (store.map Prod.fst).Nodup)
    (hcur : CACHE_NAME ∈ store.map Prod.fst) :
    ((activate store).map Prod.fst).count CACHE_NAME = 1 ∧
    (∀ n ∈ (activate store).map Prod.fst,
        startsWithS n "habit-tracker-" = true → n = CACHE_NAME) ∧
    (∀ n c, startsWithS n "habit-tracker-" = false →
        ((n, c) ∈ activate store ↔ (n, c) ∈ store)) := by
  have hsub : List.Sublist (activate store) store := List.filter_sublist _
  have hnodup' : ((activate store).map Prod.fst).Nodup :=
    hnodup.sublist (hsub.map _)
  have hmem : CACHE_NAME ∈ (activate store).map Prod.fst := by
    obtain ⟨p, hp, hfst⟩ := List.mem_map.mp hcur
    refine List.mem_map.mpr ⟨p, List.mem_filter.mpr ⟨hp, ?_⟩, hfst⟩
    simp [hfst]
  refine ⟨List.count_eq_one_of_mem hnodup' hmem, ?_, ?_⟩
  · intro n hn hstart
    obtain ⟨⟨n', c⟩, hmem', hfst⟩ := List.mem_map.mp hn
    cases hfst
    have hpred := (List.mem_filter.mp hmem').2
    simp only [hstart, Bool.not_eq_true', Bool.and_eq_false_iff] at hpred
    rcases hpred with h1 | h1
    · exact Bool.noConfusion h1
    · simpa using h1
  · intro n c hns
    simp [activate, List.mem_filter, hns]

/-- Witness for C5: a store holding the current generation, a stale
generation and an unrelated cache retains exactly one current-version
cache. -/
theorem activate_generation_exclusive_witness :
    ((activate [("habit-tracker-v1", []), ("habit-tracker-v0", []),
        ("other-cache", [])]).map Prod.fst).count CACHE_NAME = 1 :=
  (activate_generation_exclusive
    [("habit-tracker-v1", []), ("habit-tracker-v0", []), ("other-cache", [])]
    (by decide) (by decide)).1

/-- Claim C6: installation is all-or-nothing.  The install step succeeds
exactly when every manifest URL is fetched successfully (resolves with an
ok-status response — `Cache.addAll` rejects the whole batch on a rejected
fetch and on a non-ok response alike); on failure the contents of the
current cache generation are exactly what they were before (no subset of the
manifest is persisted); on success every manifest URL is cached with its
fetched response. -/
theorem install_atomic (store : CacheStore)
    (net : String → Except Unit Response) :
    ((install store net).1 = .ok () ↔
        ∀ u ∈ STATIC_CACHE_URLS, fetchRespOk (net u) = true) ∧
    ((install store net).1 = .error () →
        ∀ url, storeCacheLookup (install store net).2 CACHE_NAME url =
          storeCacheLookup store CACHE_NAME url) ∧
    ((install store net).1 = .ok () →
        ∀ u ∈ STATIC_CACHE_URLS,
          ∃ r, net u = .ok r ∧
            storeCacheLookup (install store net).2 CACHE_NAME u = some r) := by
  refine ⟨?_, ?_, ?_⟩
  · constructor
    · intro h
      cases hadd : addAllFetch net STATIC_CACHE_URLS with
      | error e => simp [install, hadd] at h
      | ok es => exact (addAllFetch_isOk_iff net STATIC_CACHE_URLS).mp ⟨es, hadd⟩
    · intro h
      obtain ⟨es, hes⟩ := (addAllFetch_isOk_iff net STATIC_CACHE_URLS).mpr h
      simp [install, hes]
  · intro h url
    cases hadd : addAllFetch net STATIC_CACHE_URLS with
    | ok es => simp [install, hadd] at h
    | error e => simp [install, hadd, storeCacheLookup_cachesOpen]
  · intro h u hu
    cases hadd : addAllFetch net STATIC_CACHE_URLS with
    | error e => simp [install, hadd] at h
    | ok es =>
        obtain ⟨hkeys, hprop⟩ := addAllFetch_ok_spec net STATIC_CACHE_URLS es hadd
        obtain ⟨r, hnet, hlast⟩ := hprop u hu
        refine ⟨r, hnet, ?_⟩
        simp [install, hadd, foldl_storePut_lookup, hlast, storeCacheLookup_cachesOpen]

/-- Witness for C6: a network from which every manifest URL fetches with
status 200 makes installation succeed. -/
theorem install_atomic_witness :
    (install [] (fun _ => .ok ⟨200, none, "asset"⟩)).1 = .ok () :=
  (install_atomic [] (fun _ => .ok ⟨200, none, "asset"⟩)).1.mpr (by decide)

end SW
